import Mathlib

/-!
Verification of the RBAC authorization engine (`core/services/permissions.py`,
`core/services/token.py`, `core/services/auth.py`).

The Django ORM tables are embedded as lists of records inside a `Db` value;
`Model.objects.get(...)` becomes `List.find?` (the schema's unique constraints,
stated as `Db.wf` hypotheses, make the two agree), `filter(...)` becomes
`List.filter`, and a `save()` becomes a map over the stored rows that replaces
the row whose primary key matches.  Time is a `Nat` of seconds; JWT tokens are
embedded as their decoded payloads (the codec is external and the claims never
exercise signature tampering), with the expiry check of `jwt.decode` made
explicit in `verify_token`.
-/

namespace EffectiveMobile

/-- A row of the `users` table (`core/models.py`, class `User`).  The fields
that never influence the verified code paths (`first_name`, `last_name`,
`patronymic`, `created_at`, `updated_at`) are kept to state frame properties
of the auth operations. -/
structure User where
  id : Nat
  email : String
  password_hash : String
  first_name : String
  last_name : String
  is_active : Bool
  token_version : Nat
  deleted_at : Option Nat
  deriving Repr, DecidableEq

/-- A row of the `roles` table. -/
structure Role where
  id : Nat
  name : String
  deriving Repr, DecidableEq

/-- A row of the `user_roles` join table. -/
structure UserRole where
  user_id : Nat
  role_id : Nat
  deriving Repr, DecidableEq

/-- A row of the `business_elements` table. -/
structure BusinessElement where
  id : Nat
  name : String
  deriving Repr, DecidableEq

/-- A row of the `access_rules` table: one rule per (role, element) pair with
seven independent boolean permission flags. -/
structure AccessRule where
  role_id : Nat
  element_id : Nat
  read_permission : Bool
  read_all_permission : Bool
  create_permission : Bool
  update_permission : Bool
  update_all_permission : Bool
  delete_permission : Bool
  delete_all_permission : Bool
  deriving Repr, DecidableEq

/-- The database state the services read and write. -/
structure Db where
  users : List User
  roles : List Role
  userRoles : List UserRole
  elements : List BusinessElement
  accessRules : List AccessRule
  deriving Repr

/-- Schema invariants guaranteed by Django for persisted rows: primary keys
are positive (AutoField starts at 1) and the `unique=True` columns
(`users.email`, `business_elements.name`) and primary keys admit no
duplicates. -/
def Db.wf (db : Db) : Prop :=
  (∀ u ∈ db.users, 0 < u.id)
    ∧ (db.users.map User.id).Nodup
    ∧ (db.users.map User.email).Nodup
    ∧ (db.elements.map BusinessElement.name).Nodup

instance (db : Db) : Decidable db.wf := by
  unfold Db.wf; infer_instance

/-- `BusinessElement.objects.get(name=element_name)` with the
`DoesNotExist` case mapped to `none` (unique name constraint makes
`find?` agree with `get`). -/
def elementByName (db : Db) (element_name : String) : Option BusinessElement :=
  db.elements.find? (fun e => e.name == element_name)

/-- Membership test behind the ORM filter `role__userrole__user=user`:
whether a `user_roles` row links the given user to the given role. -/
def userHoldsRole (db : Db) (user_id role_id : Nat) : Bool :=
  db.userRoles.any (fun ur => ur.user_id == user_id && ur.role_id == role_id)

/-- `AccessRule.objects.filter(role__userrole__user=user, element=element)`:
every access rule attached to one of the user's roles for this element. -/
def rulesFor (db : Db) (user : User) (element : BusinessElement) : List AccessRule :=
  db.accessRules.filter
    (fun rule => userHoldsRole db user.id rule.role_id && rule.element_id == element.id)

/-- Body of the `for rule in rules` loop of `has_access`
(`permissions.py`): `true` exactly when this iteration executes one of the
`return True` statements.  The checks appear in the source's order; the
`is_owner` flag is computed where the source computes it. -/
def ruleGrants (rule : AccessRule) (action : String) (user : User)
    (owner_id : Option Nat) : Bool :=
  if action == "read_all" && rule.read_all_permission then true
  else if action == "update_all" && rule.update_all_permission then true
  else if action == "delete_all" && rule.delete_all_permission then true
  else if action == "create" && rule.create_permission then true
  else
    let is_owner : Bool :=
      match owner_id with
      | none => false
      | some oid => oid == user.id
    if action == "read" then
      rule.read_all_permission || (rule.read_permission && is_owner)
    else if action == "update" then
      rule.update_all_permission || (rule.update_permission && is_owner)
    else if action == "delete" then
      rule.delete_all_permission || (rule.delete_permission && is_owner)
    else false

/-- `has_access(user=..., element_name=..., action=..., owner_id=...)` of
`core/services/permissions.py`: deny when the element does not exist,
otherwise scan the user's rules for the element and grant on the first rule
that allows the action (`List.any` is the `for` loop with its early
`return True` and the trailing `return False`). -/
def has_access (db : Db) (user : User) (element_name action : String)
    (owner_id : Option Nat) : Bool :=
  match elementByName db element_name with
  | none => false
  | some element =>
      (rulesFor db user element).any
        (fun rule => ruleGrants rule action user owner_id)

/-- The decoded claim set of a JWT produced by `generate_token`
(`core/services/token.py`).  Timestamps are seconds. -/
structure TokenPayload where
  user_id : Nat
  token_version : Nat
  exp : Nat
  iat : Nat
  deriving Repr, DecidableEq

/-- `generate_token(user)`: claim set with the user's id, the user's current
`token_version`, and a 24-hour expiry window from `now`. -/
def generate_token (user : User) (now : Nat) : TokenPayload :=
  { user_id := user.id
    token_version := user.token_version
    exp := now + 24 * 3600
    iat := now }

/-- `verify_token(token)` at time `now`.  `jwt.decode` raises
`ExpiredSignatureError` (caught, returning `None`) when the `exp` claim is
not in the future; `if not user_id` rejects a falsy id (`0` or absent);
`User.objects.get(id=..., is_active=True)` with `DoesNotExist` mapped to
`none`; finally the stored `token_version` must equal the claim's. -/
def verify_token (db : Db) (token : TokenPayload) (now : Nat) : Option User :=
  if token.exp ≤ now then none
  else if token.user_id == 0 then none
  else
    match db.users.find? (fun u => u.id == token.user_id && u.is_active) with
    | none => none
    | some user =>
        if user.token_version != token.token_version then none
        else some user

/-- `login_user(email, password)` (`core/services/auth.py`) at time `now`.
The bcrypt verifier `check_password` is external (opaque hash + verify per
the design), so it is passed in as a function.  `User.objects.get(email=...,
is_active=True)` with `DoesNotExist` mapped to `none`. -/
def login_user (db : Db) (checkPassword : String → String → Bool)
    (email password : String) (now : Nat) : Option TokenPayload :=
  match db.users.find? (fun u => u.email == email && u.is_active) with
  | none => none
  | some user =>
      if !checkPassword password user.password_hash then none
      else some (generate_token user now)

/-- `logout_user(user)`: bump the in-memory object's `token_version` and
persist with `update_fields=["token_version"]`, i.e. the stored row with the
same primary key gets only its `token_version` column overwritten.  Returns
the new database state and the mutated in-memory object. -/
def logout_user (db : Db) (user : User) : Db × User :=
  let user2 := { user with token_version := user.token_version + 1 }
  ({ db with
      users := db.users.map
        (fun u => if u.id == user2.id
          then { u with token_version := user2.token_version } else u) },
    user2)

/-- `soft_delete_user(user)` at time `now`: clear the active flag, record
the deletion time, bump the epoch, and `save()` (full-row update of the row
with the same primary key). -/
def soft_delete_user (db : Db) (user : User) (now : Nat) : Db × User :=
  let user2 := { user with
    is_active := false
    deleted_at := some now
    token_version := user.token_version + 1 }
  ({ db with
      users := db.users.map (fun u => if u.id == user2.id then user2 else u) },
    user2)

/-- Error raised by the database driver when an INSERT violates a unique
constraint (here: `users.email`). -/
inductive DbError where
  | integrityError
  deriving Repr, DecidableEq

/-- `register_user(**data)`: build a `User` from the profile data, hash the
password, and `save()` (an INSERT).  The unique constraint on `email` makes
the INSERT raise `IntegrityError` when a row with that email already exists;
`register_user` installs no handler, so the embedding returns the error
through `Except`.  The hasher is external and passed in. -/
def register_user (db : Db) (hashPassword : String → String)
    (newId : Nat) (email first_name last_name password : String) :
    Except DbError (Db × User) :=
  let user : User :=
    { id := newId
      email := email
      password_hash := hashPassword password
      first_name := first_name
      last_name := last_name
      is_active := true
      token_version := 0
      deleted_at := none }
  if db.users.any (fun u => u.email == email) then
    Except.error DbError.integrityError
  else
    Except.ok ({ db with users := db.users ++ [user] }, user)

/-- The HTTP response value a Django view produces. -/
structure JsonResponse where
  status : Nat
  body : String
  deriving Repr, DecidableEq

/-- `RegisterView.post` (`api/auth_views.py`): calls `register_user` and
returns `{"id": user.id}`.  It installs no exception handler, so an
`IntegrityError` escaping `register_user` propagates out of the view
uncaught (Django then renders a 500 server error outside this code). -/
def registerView_post (db : Db) (hashPassword : String → String)
    (newId : Nat) (email first_name last_name password : String) :
    Except DbError (Db × JsonResponse) :=
  match register_user db hashPassword newId email first_name last_name password with
  | Except.error e => Except.error e
  | Except.ok (db2, user) =>
      Except.ok (db2, { status := 200, body := toString user.id })

/-- Projection used to state properties of owner-scoped actions: the
unsuffixed permission flag named by `action`. -/
def scopedFlag (rule : AccessRule) (action : String) : Bool :=
  if action == "read" then rule.read_permission
  else if action == "update" then rule.update_permission
  else if action == "delete" then rule.delete_permission
  else false

/-- Projection used to state properties of owner-scoped actions: the
`<action>_all` permission flag named by `action`. -/
def allFlag (rule : AccessRule) (action : String) : Bool :=
  if action == "read" then rule.read_all_permission
  else if action == "update" then rule.update_all_permission
  else if action == "delete" then rule.delete_all_permission
  else false

/-- The source's ownership test `owner_id is not None and owner_id == user.id`,
named so statements can refer to it. -/
def isOwner (user : User) (owner_id : Option Nat) : Bool :=
  match owner_id with
  | none => false
  | some oid => oid == user.id

/- Concrete fixture mirroring the sample data of the repository's seed
scripts: a "guest" role whose products rule grants only owner-scoped `read`,
an "admin" role whose products rule grants everything, and two users holding
one role each. -/

def elemProducts : BusinessElement := { id := 1, name := "products" }

def ruleGuestProducts : AccessRule :=
  { role_id := 2
    element_id := 1
    read_permission := true
    read_all_permission := false
    create_permission := false
    update_permission := false
    update_all_permission := false
    delete_permission := false
    delete_all_permission := false }

def ruleAdminProducts : AccessRule :=
  { role_id := 1
    element_id := 1
    read_permission := true
    read_all_permission := true
    create_permission := true
    update_permission := true
    update_all_permission := true
    delete_permission := true
    delete_all_permission := true }

def userX : User :=
  { id := 1
    email := "x@example.com"
    password_hash := "hash-x"
    first_name := "X"
    last_name := "User"
    is_active := true
    token_version := 0
    deleted_at := none }

def userY : User :=
  { id := 2
    email := "y@example.com"
    password_hash := "hash-y"
    first_name := "Y"
    last_name := "User"
    is_active := true
    token_version := 3
    deleted_at := none }

def userNoRoles : User :=
  { id := 3
    email := "z@example.com"
    password_hash := "hash-z"
    first_name := "Z"
    last_name := "User"
    is_active := true
    token_version := 0
    deleted_at := none }

def dbSeed : Db :=
  { users := [userX, userY, userNoRoles]
    roles := [{ id := 1, name := "admin" }, { id := 2, name := "guest" }]
    userRoles := [{ user_id := 1, role_id := 2 }, { user_id := 2, role_id := 1 }]
    elements := [elemProducts]
    accessRules := [ruleGuestProducts, ruleAdminProducts] }

section Lemmas

/-- `List.find?` returns the unique element satisfying the predicate. -/
theorem find?_eq_some_of_unique {α : Type} {q : α → Bool} {x : α} :
    ∀ l : List α, x ∈ l → q x = true →
      (∀ y ∈ l, q y = true → y = x) → l.find? q = some x
  | [], hx, _, _ => absurd hx (List.not_mem_nil x)
  | a :: t, hx, hqx, huniq => by
    by_cases hqa : q a = true
    · have hax : a = x := huniq a (List.mem_cons_self a t) hqa
      subst hax
      exact List.find?_cons_of_pos t hqa
    · have hxt : x ∈ t := by
        rcases List.mem_cons.mp hx with h | h
        · exact absurd (h ▸ hqx) hqa
        · exact h
      rw [List.find?_cons_of_neg t hqa]
      exact find?_eq_some_of_unique t hxt hqx
        (fun y hy hqy => huniq y (List.mem_cons_of_mem a hy) hqy)

theorem isOwner_true_iff (user : User) (owner_id : Option Nat) :
    isOwner user owner_id = true ↔ owner_id = some user.id := by
  cases owner_id <;> simp [isOwner]

/-- For the three owner-scoped verbs, one loop iteration of `has_access`
grants exactly when the rule's `_all` flag is set or the scoped flag is set
and the caller-supplied owner matches the acting user. -/
theorem ruleGrants_eq_of_scoped (rule : AccessRule) (user : User)
    (owner_id : Option Nat) {action : String}
    (hact : action = "read" ∨ action = "update" ∨ action = "delete") :
    ruleGrants rule action user owner_id
      = (allFlag rule action || (scopedFlag rule action && isOwner user owner_id)) := by
  rcases hact with rfl | rfl | rfl <;>
    simp [ruleGrants, allFlag, scopedFlag, isOwner]

theorem elementByName_setUserRoles (db : Db) (l : List UserRole)
    (element_name : String) :
    elementByName { db with userRoles := l } element_name
      = elementByName db element_name := rfl

theorem userHoldsRole_cons (db : Db) (ur : UserRole) (uid rid : Nat) :
    userHoldsRole { db with userRoles := ur :: db.userRoles } uid rid
      = ((ur.user_id == uid && ur.role_id == rid) || userHoldsRole db uid rid) := by
  simp [userHoldsRole, List.any_cons]

end Lemmas

/-- C6: `has_access` is a total boolean function (the embedding is a Lean
`Bool`-valued function, mirroring that the source raises no exception on the
business paths); an unknown element name denies every action, and an
existing element with no matching rule also denies. -/
theorem has_access_fail_closed (db : Db) (user : User)
    (element_name action : String) (owner_id : Option Nat) :
    (elementByName db element_name = none →
      has_access db user element_name action owner_id = false)
    ∧ (∀ element, elementByName db element_name = some element →
        rulesFor db user element = [] →
        has_access db user element_name action owner_id = false) := by
  constructor
  · intro h
    simp only [has_access, h]
  · intro element h hr
    simp only [has_access, h, hr, List.any_nil]

theorem has_access_fail_closed_witness :
    has_access dbSeed userX "unknown" "read" none = false :=
  (has_access_fail_closed dbSeed userX "unknown" "read" none).1 (by decide)

/-- C7: `has_access` is monotone in the user's role assignments — adding a
`user_roles` row never turns a granted decision into a denial (the result is
an OR over matching rules) — and a user with no role assignments is denied
everything. -/
theorem has_access_role_monotone (db : Db) (ur : UserRole) (user : User)
    (element_name action : String) (owner_id : Option Nat) :
    (has_access db user element_name action owner_id = true →
      has_access { db with userRoles := ur :: db.userRoles } user element_name
        action owner_id = true)
    ∧ ((∀ link ∈ db.userRoles, link.user_id ≠ user.id) →
        has_access db user element_name action owner_id = false) := by
  constructor
  · intro h
    cases helem : elementByName db element_name with
    | none =>
        simp only [has_access, helem] at h
        exact absurd h (by decide)
    | some element =>
        simp only [has_access, helem] at h
        obtain ⟨rule, hmem, hgrant⟩ := List.any_eq_true.mp h
        have hmem2 := List.mem_filter.mp hmem
        have hpred := hmem2.2
        rw [Bool.and_eq_true] at hpred
        simp only [has_access, elementByName_setUserRoles, helem]
        refine List.any_eq_true.mpr ⟨rule, ?_, hgrant⟩
        refine List.mem_filter.mpr ⟨hmem2.1, ?_⟩
        rw [Bool.and_eq_true, userHoldsRole_cons, Bool.or_eq_true]
        exact ⟨Or.inr hpred.1, hpred.2⟩
  · intro hnone
    cases helem : elementByName db element_name with
    | none => simp only [has_access, helem]
    | some element =>
        simp only [has_access, helem]
        refine List.any_eq_false.mpr ?_
        intro rule hmem
        have hpred := (List.mem_filter.mp hmem).2
        rw [Bool.and_eq_true] at hpred
        have hhold := hpred.1
        simp only [userHoldsRole, List.any_eq_true] at hhold
        obtain ⟨link, hlink, heq⟩ := hhold
        rw [Bool.and_eq_true] at heq
        have huid : link.user_id = user.id := by simpa using heq.1
        exact absurd huid (hnone link hlink)

theorem has_access_role_monotone_witness :
    (has_access
        { dbSeed with
            userRoles := { user_id := 1, role_id := 1 } :: dbSeed.userRoles }
        userX "products" "read" (some 1) = true)
    ∧ has_access dbSeed userNoRoles "products" "read" (some 3) = false :=
  ⟨(has_access_role_monotone dbSeed { user_id := 1, role_id := 1 } userX
      "products" "read" (some 1)).1 (by decide),
   (has_access_role_monotone dbSeed { user_id := 1, role_id := 1 } userNoRoles
      "products" "read" (some 3)).2 (by decide)⟩

/-- C10: an action string outside the seven canonical verbs is denied for
every user, element and owner, even when matching rules set every flag. -/
theorem has_access_unknown_action_denied (db : Db) (user : User)
    (element_name action : String) (owner_id : Option Nat)
    (h : action ∉ (["read", "read_all", "create", "update", "update_all",
        "delete", "delete_all"] : List String)) :
    has_access db user element_name action owner_id = false := by
  simp only [List.mem_cons, List.not_mem_nil, or_false, not_or] at h
  obtain ⟨h1, h2, h3, h4, h5, h6, h7⟩ := h
  have hg : ∀ rule, ruleGrants rule action user owner_id = false := by
    intro rule
    simp [ruleGrants, h1, h2, h3, h4, h5, h6, h7]
  cases helem : elementByName db element_name with
  | none => simp only [has_access, helem]
  | some element =>
      simp only [has_access, helem]
      exact List.any_eq_false.mpr (fun rule _ => by simp [hg rule])

theorem has_access_unknown_action_denied_witness :
    has_access dbSeed userY "products" "write" (some 2) = false :=
  has_access_unknown_action_denied dbSeed userY "products" "write" (some 2)
    (by decide)

/-- C1: when every rule matching the user and element leaves the
`<action>_all` flag clear and some matching rule sets the unsuffixed flag,
the decision for an owner-scoped verb is exactly the ownership test:
granted iff `owner_id` is non-null and equals the user's id. -/
theorem scoped_grant_iff_owner (db : Db) (user : User)
    (element_name action : String) (owner_id : Option Nat)
    (element : BusinessElement)
    (hact : action = "read" ∨ action = "update" ∨ action = "delete")
    (helem : elementByName db element_name = some element)
    (hall : ∀ rule ∈ rulesFor db user element, allFlag rule action = false)
    (hsome : ∃ rule ∈ rulesFor db user element, scopedFlag rule action = true) :
    (has_access db user element_name action owner_id = true
      ↔ owner_id = some user.id) := by
  constructor
  · intro h
    simp only [has_access, helem] at h
    obtain ⟨rule, hmem, hgrant⟩ := List.any_eq_true.mp h
    rw [ruleGrants_eq_of_scoped rule user owner_id hact, hall rule hmem,
      Bool.false_or, Bool.and_eq_true] at hgrant
    exact (isOwner_true_iff user owner_id).mp hgrant.2
  · intro h
    obtain ⟨rule, hmem, hscoped⟩ := hsome
    simp only [has_access, helem]
    refine List.any_eq_true.mpr ⟨rule, hmem, ?_⟩
    rw [ruleGrants_eq_of_scoped rule user owner_id hact, hscoped,
      (isOwner_true_iff user owner_id).mpr h]
    simp

theorem scoped_grant_iff_owner_witness :
    (has_access dbSeed userX "products" "read" (some 1) = true
      ↔ (some 1 : Option Nat) = some userX.id)
    ∧ (has_access dbSeed userX "products" "read" (some 999) = true
        ↔ (some 999 : Option Nat) = some userX.id) :=
  ⟨scoped_grant_iff_owner dbSeed userX "products" "read" (some 1) elemProducts
      (Or.inl rfl) (by decide) (by decide) ⟨ruleGuestProducts, by decide, by decide⟩,
   scoped_grant_iff_owner dbSeed userX "products" "read" (some 999) elemProducts
      (Or.inl rfl) (by decide) (by decide) ⟨ruleGuestProducts, by decide, by decide⟩⟩

/-- C2: a matching rule with the `<action>_all` flag set grants the
unsuffixed owner-scoped verb for every value of `owner_id`, including
`none` and ids different from the user's. -/
theorem all_grant_subsumes (db : Db) (user : User)
    (element_name action : String) (owner_id : Option Nat)
    (element : BusinessElement) (rule : AccessRule)
    (hact : action = "read" ∨ action = "update" ∨ action = "delete")
    (helem : elementByName db element_name = some element)
    (hrule : rule ∈ db.accessRules)
    (hrelem : rule.element_id = element.id)
    (hheld : userHoldsRole db user.id rule.role_id = true)
    (hflag : allFlag rule action = true) :
    has_access db user element_name action owner_id = true := by
  have hmem : rule ∈ rulesFor db user element :=
    List.mem_filter.mpr ⟨hrule, by simp [hheld, hrelem]⟩
  simp only [has_access, helem]
  refine List.any_eq_true.mpr ⟨rule, hmem, ?_⟩
  rw [ruleGrants_eq_of_scoped rule user owner_id hact, hflag]
  simp

theorem all_grant_subsumes_witness :
    has_access dbSeed userY "products" "read" none = true
    ∧ has_access dbSeed userY "products" "read" (some 999) = true :=
  ⟨all_grant_subsumes dbSeed userY "products" "read" none elemProducts
      ruleAdminProducts (Or.inl rfl) (by decide) (by decide) (by decide) (by decide)
      (by decide),
   all_grant_subsumes dbSeed userY "products" "read" (some 999) elemProducts
      ruleAdminProducts (Or.inl rfl) (by decide) (by decide) (by decide) (by decide)
      (by decide)⟩

theorem generate_token_user_id (user : User) (now : Nat) :
    (generate_token user now).user_id = user.id := rfl

theorem generate_token_version (user : User) (now : Nat) :
    (generate_token user now).token_version = user.token_version := rfl

theorem generate_token_exp (user : User) (now : Nat) :
    (generate_token user now).exp = now + 24 * 3600 := rfl

theorem logout_user_snd (db : Db) (user : User) :
    (logout_user db user).2
      = { user with token_version := user.token_version + 1 } := rfl

theorem logout_user_users (db : Db) (user : User) :
    (logout_user db user).1.users
      = db.users.map (fun u => if u.id == user.id
          then { u with token_version := user.token_version + 1 } else u) := rfl

theorem soft_delete_user_snd (db : Db) (user : User) (now : Nat) :
    (soft_delete_user db user now).2
      = { user with
            is_active := false
            deleted_at := some now
            token_version := user.token_version + 1 } := rfl

theorem soft_delete_user_users (db : Db) (user : User) (now : Nat) :
    (soft_delete_user db user now).1.users
      = db.users.map (fun u => if u.id == user.id
          then { user with
                  is_active := false
                  deleted_at := some now
                  token_version := user.token_version + 1 }
          else u) := rfl

/-- Searching a row set updated by a primary-key `save()`: when ids are
unique, the row with the written id is found as its updated value (if it
still satisfies the predicate), and every other row is untouched and by
hypothesis fails the predicate. -/
theorem find?_update (users : List User) (user : User) (f : User → User)
    (q : User → Bool)
    (hids : (users.map User.id).Nodup) (hmem : user ∈ users)
    (hother : ∀ v ∈ users, v.id ≠ user.id → q v = false) :
    (users.map (fun v => if v.id == user.id then f v else v)).find? q
      = if q (f user) = true then some (f user) else none := by
  have hinj : ∀ v ∈ users, v.id = user.id → v = user :=
    fun v hv hid => List.inj_on_of_nodup_map hids hv hmem hid
  by_cases hq : q (f user) = true
  · rw [if_pos hq]
    refine find?_eq_some_of_unique _ ?_ hq ?_
    · exact List.mem_map.mpr ⟨user, hmem, by simp⟩
    · intro y hy hqy
      obtain ⟨v, hv, hgv⟩ := List.mem_map.mp hy
      by_cases hid : v.id = user.id
      · have hvu : v = user := hinj v hv hid
        subst hvu
        rw [if_pos (by simp)] at hgv
        exact hgv.symm
      · rw [if_neg (by simp [hid])] at hgv
        rw [← hgv] at hqy
        exact absurd hqy (by simp [hother v hv hid])
  · rw [if_neg hq]
    refine List.find?_eq_none.mpr ?_
    intro y hy
    obtain ⟨v, hv, hgv⟩ := List.mem_map.mp hy
    by_cases hid : v.id = user.id
    · have hvu : v = user := hinj v hv hid
      subst hvu
      rw [if_pos (by simp)] at hgv
      rw [← hgv]
      exact hq
    · rw [if_neg (by simp [hid])] at hgv
      rw [← hgv]
      simp [hother v hv hid]

/-- When user ids are unique, the lookup behind `verify_token` finds exactly
the active user whose id is in the token. -/
theorem find?_by_id_active (users : List User) (user : User)
    (hids : (users.map User.id).Nodup) (hmem : user ∈ users)
    (hact : user.is_active = true) :
    users.find? (fun u => u.id == user.id && u.is_active) = some user := by
  refine find?_eq_some_of_unique users hmem (by simp [hact]) ?_
  intro y hy hqy
  rw [Bool.and_eq_true] at hqy
  have hid : y.id = user.id := by simpa using hqy.1
  exact List.inj_on_of_nodup_map hids hy hmem hid

/-- C5: immediately after issuance, with the stored record unchanged, a
token for an active user verifies back to that same user. -/
theorem verify_generate_roundtrip (db : Db) (user : User) (now : Nat)
    (hwf : db.wf) (hmem : user ∈ db.users) (hact : user.is_active = true) :
    verify_token db (generate_token user now) now = some user := by
  have hpos : 0 < user.id := hwf.1 user hmem
  have hfind := find?_by_id_active db.users user hwf.2.1 hmem hact
  simp only [verify_token, generate_token_exp, generate_token_user_id,
    generate_token_version]
  rw [if_neg (by omega)]
  rw [if_neg (by simp; omega)]
  rw [hfind]
  simp

theorem verify_generate_roundtrip_witness :
    verify_token dbSeed (generate_token userY 100) 100 = some userY :=
  verify_generate_roundtrip dbSeed userY 100 (by decide) (by decide) (by decide)

/-- C3: after `logout_user`, every token issued before the logout (carrying
the old epoch) fails `verify_token` at any time, while a token issued from
the updated record (new epoch) verifies to that record. -/
theorem logout_invalidates (db : Db) (user : User) (t1 t2 : Nat)
    (hwf : db.wf) (hmem : user ∈ db.users) (hact : user.is_active = true) :
    (∀ now, verify_token (logout_user db user).1 (generate_token user t1) now
      = none)
    ∧ verify_token (logout_user db user).1
        (generate_token (logout_user db user).2 t2) t2
      = some (logout_user db user).2 := by
  have hpos : 0 < user.id := hwf.1 user hmem
  have hfind : (logout_user db user).1.users.find?
      (fun u => u.id == user.id && u.is_active)
      = some { user with token_version := user.token_version + 1 } := by
    rw [logout_user_users]
    rw [find?_update db.users user
      (fun v => { v with token_version := user.token_version + 1 })
      (fun u => u.id == user.id && u.is_active) hwf.2.1 hmem
      (fun v _ hvid => by simp [hvid])]
    rw [if_pos (by simp [hact])]
  constructor
  · intro now
    simp only [verify_token, generate_token_exp, generate_token_user_id,
      generate_token_version]
    by_cases hexp : t1 + 24 * 3600 ≤ now
    · rw [if_pos hexp]
    · rw [if_neg hexp, if_neg (by simp; omega), hfind]
      simp
  · rw [logout_user_snd]
    simp only [verify_token, generate_token_exp, generate_token_user_id,
      generate_token_version]
    rw [if_neg (by omega), if_neg (by simp; omega), hfind]
    simp

theorem logout_invalidates_witness :
    (verify_token (logout_user dbSeed userX).1 (generate_token userX 50) 70
      = none)
    ∧ verify_token (logout_user dbSeed userX).1
        (generate_token (logout_user dbSeed userX).2 60) 60
      = some (logout_user dbSeed userX).2 :=
  ⟨(logout_invalidates dbSeed userX 50 60 (by decide) (by decide)
      (by decide)).1 70,
   (logout_invalidates dbSeed userX 50 60 (by decide) (by decide)
      (by decide)).2⟩

/-- C4: after `soft_delete_user`, every token carrying that user's id fails
`verify_token` (the stored row is inactive and its epoch advanced), and
`login_user` with that user's email denies for every password, in
particular the correct one. -/
theorem soft_delete_invalidates (db : Db) (user : User) (tDel : Nat)
    (checkPassword : String → String → Bool)
    (hwf : db.wf) (hmem : user ∈ db.users) :
    (∀ tok : TokenPayload, tok.user_id = user.id →
      ∀ now, verify_token (soft_delete_user db user tDel).1 tok now = none)
    ∧ (∀ password now,
        login_user (soft_delete_user db user tDel).1 checkPassword
          user.email password now = none) := by
  have hinjEmail : ∀ v ∈ db.users, v.email = user.email → v = user :=
    fun v hv he => List.inj_on_of_nodup_map hwf.2.2.1 hv hmem he
  constructor
  · intro tok htok now
    simp only [verify_token, htok]
    by_cases hexp : tok.exp ≤ now
    · rw [if_pos hexp]
    · rw [if_neg hexp]
      by_cases hid0 : (user.id == 0) = true
      · rw [if_pos hid0]
      · have hfind : (soft_delete_user db user tDel).1.users.find?
            (fun u => u.id == user.id && u.is_active) = none := by
          rw [soft_delete_user_users]
          rw [find?_update db.users user
            (fun _ => { user with
              is_active := false
              deleted_at := some tDel
              token_version := user.token_version + 1 })
            (fun u => u.id == user.id && u.is_active) hwf.2.1 hmem
            (fun v _ hvid => by simp [hvid])]
          rw [if_neg (by simp)]
        rw [if_neg hid0, hfind]
  · intro password now
    have hfind : (soft_delete_user db user tDel).1.users.find?
        (fun u => u.email == user.email && u.is_active) = none := by
      rw [soft_delete_user_users]
      rw [find?_update db.users user
        (fun _ => { user with
          is_active := false
          deleted_at := some tDel
          token_version := user.token_version + 1 })
        (fun u => u.email == user.email && u.is_active) hwf.2.1 hmem ?_]
      · rw [if_neg (by simp)]
      · intro v hv hvid
        have hne : v.email ≠ user.email := fun he =>
          hvid (congrArg User.id (hinjEmail v hv he))
        simp [hne]
    simp only [login_user, hfind]

theorem soft_delete_invalidates_witness :
    (verify_token (soft_delete_user dbSeed userX 200).1
      (generate_token userX 50) 300 = none)
    ∧ login_user (soft_delete_user dbSeed userX 200).1 (fun _ _ => true)
        userX.email "password" 300 = none :=
  ⟨(soft_delete_invalidates dbSeed userX 200 (fun _ _ => true) (by decide)
      (by decide)).1 (generate_token userX 50) rfl 300,
   (soft_delete_invalidates dbSeed userX 200 (fun _ _ => true) (by decide)
      (by decide)).2 "password" 300⟩

/-- C9: `logout_user` bumps the epoch by exactly one and persists only
that: the stored row keeps its email, password hash, activity flag,
deletion timestamp and names; no row is deleted; every other row is
untouched. -/
theorem logout_frame (db : Db) (user : User)
    (hwf : db.wf) (hmem : user ∈ db.users) :
    (logout_user db user).2.token_version = user.token_version + 1
    ∧ (logout_user db user).1.users.length = db.users.length
    ∧ (∀ v ∈ (logout_user db user).1.users, v.id = user.id →
        v = { user with token_version := user.token_version + 1 })
    ∧ { user with token_version := user.token_version + 1 }
        ∈ (logout_user db user).1.users
    ∧ (∀ v ∈ db.users, v.id ≠ user.id → v ∈ (logout_user db user).1.users) := by
  have hinj : ∀ v ∈ db.users, v.id = user.id → v = user :=
    fun v hv hid => List.inj_on_of_nodup_map hwf.2.1 hv hmem hid
  refine ⟨rfl, ?_, ?_, ?_, ?_⟩
  · rw [logout_user_users]
    exact List.length_map db.users _
  · intro v hv hvid
    rw [logout_user_users] at hv
    obtain ⟨w, hw, hgw⟩ := List.mem_map.mp hv
    by_cases hid : w.id = user.id
    · have hwu : w = user := hinj w hw hid
      subst hwu
      rw [if_pos (by simp)] at hgw
      exact hgw.symm
    · rw [if_neg (by simp [hid])] at hgw
      rw [← hgw] at hvid
      exact absurd hvid hid
  · rw [logout_user_users]
    exact List.mem_map.mpr ⟨user, hmem, by simp⟩
  · intro v hv hne
    rw [logout_user_users]
    exact List.mem_map.mpr ⟨v, hv, by simp [hne]⟩

theorem logout_frame_witness :
    ({ userX with token_version := userX.token_version + 1 }
      ∈ (logout_user dbSeed userX).1.users)
    ∧ (logout_user dbSeed userX).1.users.length = dbSeed.users.length :=
  ⟨(logout_frame dbSeed userX (by decide) (by decide)).2.2.2.1,
   (logout_frame dbSeed userX (by decide) (by decide)).2.1⟩

/-- C8, counterexample: registering an email that already exists does not
produce an explicit result value — `RegisterView.post` propagates the
store's `IntegrityError` uncaught (modelled as the `Except.error` escaping
the view), so at this concrete input the view yields the propagated fault
rather than any response. -/
theorem register_duplicate_uncaught_counterexample :
    registerView_post dbSeed (fun p => String.append "bcrypt:" p) 4
      "x@example.com" "A" "B" "pw"
      = Except.error DbError.integrityError := rfl

/-- C8 (amended): when the email already exists, the uniqueness constraint
raises `IntegrityError` inside `register_user`; neither `register_user` nor
`RegisterView.post` installs a handler, so the condition propagates to the
caller as an uncaught fault instead of an explicit result value. -/
theorem register_duplicate_raises (db : Db) (hashPassword : String → String)
    (newId : Nat) (email first_name last_name password : String)
    (hdup : ∃ u ∈ db.users, u.email = email) :
    registerView_post db hashPassword newId email first_name last_name password
      = Except.error DbError.integrityError := by
  obtain ⟨u, hu, he⟩ := hdup
  have hany : db.users.any (fun v => v.email == email) = true :=
    List.any_eq_true.mpr ⟨u, hu, by simp [he]⟩
  simp only [registerView_post, register_user, hany, if_true]

theorem register_duplicate_raises_witness :
    registerView_post dbSeed (fun p => String.append "bcrypt:" p) 4
      "y@example.com" "A" "B" "pw"
      = Except.error DbError.integrityError :=
  register_duplicate_raises dbSeed (fun p => String.append "bcrypt:" p) 4
    "y@example.com" "A" "B" "pw" ⟨userY, by decide, by decide⟩

end EffectiveMobile
